import Mathlib

/-!
Shallow embedding of the Fantasy-Premier-League repository core:
the gameweek-gap planning of generate-missing-gameweeks.py and the
player-identity matching of understat.py.

Filesystem interaction is modelled by passing directory listings
explicitly: a directory is an Option of its list of entries (none when
the path does not exist, matching os.path.exists / os.listdir), and a
CSV file is a list of rows.  Python exceptions are modelled with
Except.  Strings are handled through their character lists, matching
Python's code-point slicing.
-/

namespace FPLModel

/-- Decimal digits folded into a natural number. -/
def digitsToNat (cs : List Char) : Nat :=
  cs.foldl (fun a c => 10 * a + (c.toNat - 48)) 0

/-- Python int() applied to the characters of a string: surrounding
whitespace is stripped, an optional single sign is followed by at
least one decimal digit; anything else raises ValueError, modelled as
none. -/
def pyIntOfChars (cs : List Char) : Option Int :=
  let t := ((cs.dropWhile Char.isWhitespace).reverse.dropWhile Char.isWhitespace).reverse
  match t with
  | '-' :: ds =>
    if !ds.isEmpty && ds.all Char.isDigit then some (-(digitsToNat ds : Int)) else none
  | '+' :: ds =>
    if !ds.isEmpty && ds.all Char.isDigit then some (digitsToNat ds : Int) else none
  | ds =>
    if !ds.isEmpty && ds.all Char.isDigit then some (digitsToNat ds : Int) else none

/-- Python int() on a string field. -/
def pyInt (s : String) : Option Int := pyIntOfChars s.data

/-- Filename filter of get_existing_gameweeks: startswith('gw'),
endswith('.csv'), and not the reserved merged_gw.csv. -/
def isGwEntry (fname : String) : Bool :=
  "gw".data.isPrefixOf fname.data && ".csv".data.isSuffixOf fname.data
    && fname != "merged_gw.csv"

/-- The Python slice fname[2:-4], taken on the character list. -/
def gwStemChars (fname : String) : List Char :=
  let xs := fname.data.drop 2
  xs.take (xs.length - 4)

/-- One step of the listing scan in get_existing_gameweeks: a file
named gw<n>.csv, other than the reserved merged_gw.csv, contributes
int(fname[2:-4]); a ValueError from int() is swallowed by the
try/except and the entry is skipped. -/
def scanStep (existing : Finset Int) (fname : String) : Finset Int :=
  if isGwEntry fname then
    match pyIntOfChars (gwStemChars fname) with
    | some n => insert n existing
    | none => existing
  else existing

/-- get_existing_gameweeks from generate-missing-gameweeks.py.  The
argument is the directory listing, none when the path does not exist
(the os.path.exists guard). -/
def get_existing_gameweeks (dir : Option (List String)) : Finset Int :=
  match dir with
  | none => ∅
  | some fnames => fnames.foldl scanStep ∅

/-- Python exceptions relevant to this program. -/
inductive PyErr
  | valueError
  | keyError
  | fileNotFound
deriving DecidableEq

/-- One csv.DictReader row: an association of column names to field
values. -/
structure Row where
  fields : List (String × String)
deriving DecidableEq

/-- Column access on a DictReader row; none models a KeyError. -/
def Row.col (r : Row) (key : String) : Option String :=
  (r.fields.find? (fun p => p.1 == key)).map Prod.snd

/-- One entry of the players directory: its name, whether it is a
subdirectory, and the parsed rows of its gw.csv when that file
exists. -/
structure PlayerEntry where
  name : String
  isDir : Bool
  gwCsv : Option (List Row)
deriving DecidableEq

/-- Row loop of get_available_gameweeks: available.add(int(row['round']))
for every row; a missing column raises KeyError and a malformed value
raises ValueError, aborting the whole call. -/
def parseRounds (rows : List Row) : Except PyErr (Finset Int) :=
  rows.foldlM (fun available row =>
    match row.col "round" with
    | none => Except.error PyErr.keyError
    | some s =>
      match pyInt s with
      | none => Except.error PyErr.valueError
      | some n => Except.ok (insert n available)) ∅

/-- Directory loop of get_available_gameweeks: entries are examined in
listing order; the first subdirectory that contains a gw.csv is parsed
and the loop breaks; entries that are not directories or lack the file
are passed over. -/
def goAvailable : List PlayerEntry → Except PyErr (Finset Int)
  | [] => Except.ok ∅
  | e :: rest =>
    if e.isDir then
      match e.gwCsv with
      | some rows => parseRounds rows
      | none => goAvailable rest
    else goAvailable rest

/-- get_available_gameweeks from generate-missing-gameweeks.py: the
function calls os.listdir on the player directory with no existence
guard, so a missing directory raises FileNotFoundError. -/
def get_available_gameweeks (dir : Option (List PlayerEntry)) : Except PyErr (Finset Int) :=
  match dir with
  | none => Except.error PyErr.fileNotFound
  | some entries => goAvailable entries

/-- Gameweek selection in main(): an explicit MISSING_GAMEWEEKS list is
used verbatim, otherwise sorted(available - existing). -/
def plan_gameweeks (missing : Option (List Int)) (available existing : Finset Int) : List Int :=
  match missing with
  | some l => l
  | none => (available \ existing).sort (· ≤ ·)

/-- Collection loop of main(): collect_gw is invoked once per planned
gameweek with no exception handling.  The result pairs the list of
gameweeks for which collect_gw was actually invoked with the final
outcome of the loop. -/
def collect_loop (collect : Int → Except PyErr Unit) : List Int → List Int × Except PyErr Unit
  | [] => ([], Except.ok ())
  | gw :: rest =>
    match collect gw with
    | Except.ok _ =>
      let r := collect_loop collect rest
      (gw :: r.1, r.2)
    | Except.error e => ([gw], Except.error e)

/-- One row of understat_player.csv, restricted to the columns read by
match_ids. -/
structure UstatRow where
  player_name : String
  id : String
deriving DecidableEq

/-- One row of player_idlist.csv, restricted to the columns read by
match_ids. -/
structure FplRow where
  first_name : String
  second_name : String
  id : String
deriving DecidableEq

/-- The PlayerID class of understat.py; every field is already the
string produced by str() in its constructor. -/
structure PlayerID where
  us_id : String
  fpl_id : String
  us_name : String
  fpl_name : String
deriving DecidableEq

/-- A Python dict with string keys and values, modelled as an
association list in insertion order. -/
abbrev Dict := List (String × String)

/-- Python dict assignment d[k] = v: an existing key keeps its
position and gets the new value, a new key is appended. -/
def dinsert (d : Dict) (k v : String) : Dict :=
  if d.any (fun p => p.1 == k) then d.map (fun p => if p.1 == k then (k, v) else p)
  else d ++ [(k, v)]

/-- Python dict access d.get(k) / d[k]: the value at the key, if
present. -/
def dlookup (d : Dict) (k : String) : Option String :=
  (d.find? (fun p => p.1 == k)).map Prod.snd

/-- Python list(d.keys()): the keys in insertion order. -/
def dkeys (d : Dict) : List String := d.map Prod.fst

/-- First reading loop of match_ids: ustat_players[row['player_name']]
= row['id'], later duplicates overwriting earlier ones. -/
def build_ustat_index (rows : List UstatRow) : Dict :=
  rows.foldl (fun d r => dinsert d r.player_name r.id) []

/-- Second reading loop of match_ids: fpl_players[row['first_name'] +
' ' + row['second_name']] = row['id']. -/
def build_fpl_index (rows : List FplRow) : Dict :=
  rows.foldl (fun d r => dinsert d (r.first_name ++ " " ++ r.second_name) r.id) []

/-- The record built for one understat entry (k, v): a matched record
when k is an fpl_players key, else an understat-only record with the
sentinel FPL id str(-1) and empty FPL name. -/
def mkFirst (fpl : Dict) (kv : String × String) : PlayerID :=
  match dlookup fpl kv.1 with
  | some fid => ⟨kv.2, fid, kv.1, kv.1⟩
  | none => ⟨kv.2, "-1", kv.1, ""⟩

/-- The record built for an fpl_players entry (k, v) whose key was not
marked found: sentinel understat id str(-1) and empty understat
name. -/
def mkResidue (kv : String × String) : PlayerID := ⟨"-1", kv.2, "", kv.1⟩

/-- Body of the first emitting loop of match_ids: the record is
appended, and on a match the name is recorded in found. -/
def firstPass (fpl : Dict) (acc : List PlayerID × List String) (kv : String × String) :
    List PlayerID × List String :=
  match dlookup fpl kv.1 with
  | some fid => (acc.1 ++ [(⟨kv.2, fid, kv.1, kv.1⟩ : PlayerID)], acc.2 ++ [kv.1])
  | none => (acc.1 ++ [(⟨kv.2, "-1", kv.1, ""⟩ : PlayerID)], acc.2)

/-- Body of the second emitting loop of match_ids: fpl entries whose
key is not in found are appended as residue records. -/
def secondPass (found : List String) (ps : List PlayerID) (kv : String × String) :
    List PlayerID :=
  if found.contains kv.1 then ps else ps ++ [mkResidue kv]

/-- The record list built by match_ids from the two name indexes. -/
def match_players (ustat fpl : Dict) : List PlayerID :=
  let step1 := ustat.foldl (firstPass fpl) ([], [])
  fpl.foldl (secondPass step1.2) step1.1

/-- match_ids from understat.py, from the parsed rows of the two input
files to the emitted record list. -/
def match_ids (u : List UstatRow) (f : List FplRow) : List PlayerID :=
  match_players (build_ustat_index u) (build_fpl_index f)

/-- One output line written for a record by match_ids. -/
def rowOf (p : PlayerID) : String :=
  p.us_id ++ "," ++ p.fpl_id ++ "," ++ p.us_name ++ "," ++ p.fpl_name ++ "\n"

/-- The full text written to id_dict.csv: the fixed header line
followed by one line per record. -/
def serialize (ps : List PlayerID) : String :=
  "Understat_ID,FPL_ID,Understat_Name,FPL_Name\n" ++ String.join (ps.map rowOf)

/-- The real-world name a record stands for: the understat-side name
when that side is present, else the FPL-side name. -/
def entityName (p : PlayerID) : String :=
  if p.us_name = "" then p.fpl_name else p.us_name

/-- A record carrying both sides, recognised by both name fields being
non-empty. -/
def isMatchedRec (p : PlayerID) : Bool :=
  p.us_name != "" && p.fpl_name != ""

/-- A record carrying only the FPL side. -/
def isFplOnlyRec (p : PlayerID) : Bool :=
  p.us_name == "" && p.fpl_name != ""

/-! Lemmas about the dict model. -/

theorem dlookup_eq_none_iff (d : Dict) (k : String) :
    dlookup d k = none ↔ k ∉ dkeys d := by
  simp only [dlookup, dkeys, Option.map_eq_none', List.find?_eq_none, List.mem_map,
    beq_iff_eq]
  constructor
  · rintro h ⟨p, hp, rfl⟩
    exact h p hp rfl
  · rintro h p hp rfl
    exact h ⟨p, hp, rfl⟩

theorem dlookup_isSome_iff (d : Dict) (k : String) :
    (dlookup d k).isSome = true ↔ k ∈ dkeys d := by
  rw [← Decidable.not_iff_not, Option.not_isSome_iff_eq_none, dlookup_eq_none_iff]

theorem dlookup_some_mem {d : Dict} {k v : String} (h : dlookup d k = some v) :
    (k, v) ∈ d := by
  simp only [dlookup, Option.map_eq_some'] at h
  obtain ⟨p, hp, rfl⟩ := h
  have hmem := List.mem_of_find?_eq_some hp
  have hkey := List.find?_some hp
  simp only [beq_iff_eq] at hkey
  have hpair : (p.1, p.2) ∈ d := by rwa [Prod.mk.eta]
  rwa [hkey] at hpair

theorem mem_dinsert {kv : String × String} {d : Dict} {k v : String}
    (h : kv ∈ dinsert d k v) : kv ∈ d ∨ kv = (k, v) := by
  unfold dinsert at h
  split at h
  · rw [List.mem_map] at h
    obtain ⟨p, hp, he⟩ := h
    by_cases hkp : p.1 = k
    · right
      simp only [hkp, beq_self_eq_true, if_true] at he
      exact he.symm
    · left
      simp only [hkp, beq_iff_eq, if_false] at he
      exact he ▸ hp
  · rcases List.mem_append.1 h with h1 | h1
    · exact Or.inl h1
    · exact Or.inr (by simpa using h1)

theorem dkeys_dinsert (d : Dict) (k v : String) :
    dkeys (dinsert d k v) = if k ∈ dkeys d then dkeys d else dkeys d ++ [k] := by
  have hany : (d.any (fun p => p.1 == k)) = true ↔ k ∈ dkeys d := by
    simp only [List.any_eq_true, beq_iff_eq, dkeys, List.mem_map]
  unfold dinsert
  by_cases hk : k ∈ dkeys d
  · rw [if_pos (hany.2 hk), if_pos hk]
    unfold dkeys
    rw [List.map_map]
    refine List.map_congr_left ?_
    intro p _
    by_cases hpk : p.1 = k
    · simp [hpk]
    · simp [hpk]
  · rw [if_neg (fun hc => hk (hany.1 hc)), if_neg hk]
    simp [dkeys]

theorem nodup_dkeys_dinsert {d : Dict} (h : (dkeys d).Nodup) (k v : String) :
    (dkeys (dinsert d k v)).Nodup := by
  rw [dkeys_dinsert]
  by_cases hk : k ∈ dkeys d
  · rwa [if_pos hk]
  · rw [if_neg hk, List.nodup_append_comm]
    simpa using ⟨hk, h⟩

theorem nodup_dkeys_foldl {α : Type} (key val : α → String) :
    ∀ (l : List α) (d : Dict), (dkeys d).Nodup →
      (dkeys (l.foldl (fun acc r => dinsert acc (key r) (val r)) d)).Nodup
  | [], _, h => h
  | r :: rest, _, h =>
    nodup_dkeys_foldl key val rest _ (nodup_dkeys_dinsert h (key r) (val r))

theorem mem_foldl_dinsert {α : Type} (key val : α → String) :
    ∀ (l : List α) (d : Dict) (kv : String × String),
      kv ∈ l.foldl (fun acc r => dinsert acc (key r) (val r)) d →
      kv ∈ d ∨ ∃ r ∈ l, kv = (key r, val r)
  | [], d, kv, h => Or.inl h
  | r :: rest, d, kv, h => by
    rcases mem_foldl_dinsert key val rest _ kv h with h1 | h1
    · rcases mem_dinsert h1 with h2 | h2
      · exact Or.inl h2
      · exact Or.inr ⟨r, List.mem_cons_self r rest, h2⟩
    · obtain ⟨r', hr', he⟩ := h1
      exact Or.inr ⟨r', List.mem_cons_of_mem r hr', he⟩

theorem nodup_dkeys_build_ustat (u : List UstatRow) :
    (dkeys (build_ustat_index u)).Nodup :=
  nodup_dkeys_foldl _ _ u [] List.nodup_nil

theorem nodup_dkeys_build_fpl (f : List FplRow) :
    (dkeys (build_fpl_index f)).Nodup :=
  nodup_dkeys_foldl _ _ f [] List.nodup_nil

theorem mem_build_ustat {u : List UstatRow} {kv : String × String}
    (h : kv ∈ build_ustat_index u) : ∃ r ∈ u, kv = (r.player_name, r.id) := by
  rcases mem_foldl_dinsert _ _ u [] kv h with h1 | h1
  · cases h1
  · exact h1

theorem mem_build_fpl {f : List FplRow} {kv : String × String}
    (h : kv ∈ build_fpl_index f) :
    ∃ r ∈ f, kv = (r.first_name ++ " " ++ r.second_name, r.id) := by
  rcases mem_foldl_dinsert _ _ f [] kv h with h1 | h1
  · cases h1
  · exact h1

theorem fpl_key_ne_empty {f : List FplRow} {kv : String × String}
    (h : kv ∈ build_fpl_index f) : kv.1 ≠ "" := by
  obtain ⟨r, _, rfl⟩ := mem_build_fpl h
  intro hc
  have := congrArg (fun s => s.data.length) hc
  have hd : ∀ a b : String, (a ++ b).data = a.data ++ b.data := by
    intro a b; cases a; cases b; rfl
  simp [hd] at this

/-! Characterization of the two emitting loops of match_ids. -/

/-- Names marked found by the first loop: understat keys that are also
fpl keys. -/
def foundKeys (ustat fpl : Dict) : List String :=
  (ustat.filter (fun kv => (dlookup fpl kv.1).isSome)).map Prod.fst

theorem firstPass_foldl (fpl : Dict) (ustat : Dict) :
    ∀ (ps : List PlayerID) (fd : List String),
      ustat.foldl (firstPass fpl) (ps, fd) =
        (ps ++ ustat.map (mkFirst fpl), fd ++ foundKeys ustat fpl) := by
  induction ustat with
  | nil => intro ps fd; simp [foundKeys]
  | cons kv rest ih =>
    intro ps fd
    rw [List.foldl_cons]
    cases h : dlookup fpl kv.1 with
    | none =>
      rw [show firstPass fpl (ps, fd) kv = (ps ++ [mkFirst fpl kv], fd) by
            simp [firstPass, mkFirst, h]]
      rw [ih]
      simp [foundKeys, List.filter_cons, h]
    | some fid =>
      rw [show firstPass fpl (ps, fd) kv = (ps ++ [mkFirst fpl kv], fd ++ [kv.1]) by
            simp [firstPass, mkFirst, h]]
      rw [ih]
      simp [foundKeys, List.filter_cons, h]

theorem secondPass_foldl (found : List String) (fpl : Dict) :
    ∀ (ps : List PlayerID),
      fpl.foldl (secondPass found) ps =
        ps ++ (fpl.filter (fun kv => !(found.contains kv.1))).map mkResidue := by
  induction fpl with
  | nil => intro ps; simp
  | cons kv rest ih =>
    intro ps
    rw [List.foldl_cons]
    by_cases h : kv.1 ∈ found
    · rw [show secondPass found ps kv = ps by simp [secondPass, h]]
      rw [ih]
      simp [List.filter_cons, h]
    · rw [show secondPass found ps kv = ps ++ [mkResidue kv] by simp [secondPass, h]]
      rw [ih]
      simp [List.filter_cons, h]

theorem mem_foundKeys (ustat fpl : Dict) (k : String) :
    k ∈ foundKeys ustat fpl ↔ k ∈ dkeys ustat ∧ (dlookup fpl k).isSome = true := by
  simp only [foundKeys, List.mem_map, List.mem_filter, dkeys]
  constructor
  · rintro ⟨kv, ⟨hkv, hs⟩, rfl⟩
    exact ⟨⟨kv, hkv, rfl⟩, hs⟩
  · rintro ⟨⟨kv, hkv, rfl⟩, hs⟩
    exact ⟨kv, ⟨hkv, hs⟩, rfl⟩

/-- The canonical shape of the match_ids record list: first one record
per understat-index entry in index order, then one residue record per
fpl-index entry whose key is not an understat key, in index order. -/
theorem match_players_eq (ustat fpl : Dict) :
    match_players ustat fpl =
      ustat.map (mkFirst fpl) ++
        (fpl.filter (fun kv => (dlookup ustat kv.1).isNone)).map mkResidue := by
  unfold match_players
  rw [firstPass_foldl fpl ustat [] [], secondPass_foldl]
  simp only [List.nil_append]
  have hf : fpl.filter (fun kv => !((foundKeys ustat fpl).contains kv.1)) =
      fpl.filter (fun kv => (dlookup ustat kv.1).isNone) := by
    refine List.filter_congr ?_
    intro kv hkv
    have hkey : kv.1 ∈ dkeys fpl := List.mem_map_of_mem Prod.fst hkv
    have hsome : (dlookup fpl kv.1).isSome = true := (dlookup_isSome_iff fpl kv.1).2 hkey
    by_cases hu : kv.1 ∈ dkeys ustat
    · have hfk : kv.1 ∈ foundKeys ustat fpl := (mem_foundKeys ustat fpl kv.1).2 ⟨hu, hsome⟩
      cases hdl : dlookup ustat kv.1 with
      | none => exact absurd hu (by rwa [dlookup_eq_none_iff] at hdl)
      | some x => simp [hfk, hdl]
    · have hfk : kv.1 ∉ foundKeys ustat fpl := fun hc =>
        hu ((mem_foundKeys ustat fpl kv.1).1 hc).1
      have hlook : dlookup ustat kv.1 = none := (dlookup_eq_none_iff ustat kv.1).2 hu
      simp [hfk, hlook]
  rw [hf]

/-! Claim theorems for the gap-planning side. -/

theorem mem_scan_foldl (fnames : List String) :
    ∀ (acc : Finset Int) (n : Int),
      n ∈ fnames.foldl scanStep acc ↔
        n ∈ acc ∨ ∃ f ∈ fnames, isGwEntry f = true ∧ pyIntOfChars (gwStemChars f) = some n := by
  induction fnames with
  | nil => intro acc n; simp
  | cons f rest ih =>
    intro acc n
    rw [List.foldl_cons]
    by_cases hq : isGwEntry f = true
    · cases hp : pyIntOfChars (gwStemChars f) with
      | some m =>
        rw [show scanStep acc f = insert m acc by simp [scanStep, hq, hp]]
        rw [ih]
        simp only [Finset.mem_insert, hq, hp, List.mem_cons]
        constructor
        · rintro (⟨rfl | hn⟩ | ⟨g, hg, hge, hgp⟩)
          · exact Or.inr ⟨f, Or.inl rfl, hq, hp⟩
          · exact Or.inl hn
          · exact Or.inr ⟨g, Or.inr hg, hge, hgp⟩
        · rintro (hn | ⟨g, hg | hg, hge, hgp⟩)
          · exact Or.inl (Or.inr hn)
          · subst hg
            rw [hp] at hgp
            exact Or.inl (Or.inl (Option.some_injective _ hgp).symm)
          · exact Or.inr ⟨g, hg, hge, hgp⟩
      | none =>
        rw [show scanStep acc f = acc by simp [scanStep, hq, hp]]
        rw [ih]
        constructor
        · rintro (hn | ⟨g, hg, hge, hgp⟩)
          · exact Or.inl hn
          · exact Or.inr ⟨g, List.mem_cons_of_mem f hg, hge, hgp⟩
        · rintro (hn | ⟨g, hg, hge, hgp⟩)
          · exact Or.inl hn
          · rcases List.mem_cons.1 hg with hg1 | hg1
            · subst hg1
              rw [hp] at hgp
              cases hgp
            · exact Or.inr ⟨g, hg1, hge, hgp⟩
    · rw [show scanStep acc f = acc by simp [scanStep, hq]]
      rw [ih]
      constructor
      · rintro (hn | ⟨g, hg, hge, hgp⟩)
        · exact Or.inl hn
        · exact Or.inr ⟨g, List.mem_cons_of_mem f hg, hge, hgp⟩
      · rintro (hn | ⟨g, hg, hge, hgp⟩)
        · exact Or.inl hn
        · rcases List.mem_cons.1 hg with hg1 | hg1
          · subst hg1
            exact absurd hge hq
          · exact Or.inr ⟨g, hg1, hge, hgp⟩

/-- C9: on an existing gameweek directory, get_existing_gameweeks
collects exactly the integers int(fname[2:-4]) of entries matching
gw*.csv other than merged_gw.csv, silently skipping entries whose
middle substring is not a valid integer; in particular the listing
gw3.csv, gwX.csv, merged_gw.csv yields the inventory {3}. -/
theorem existing_gameweeks_characterization :
    (∀ (fnames : List String) (n : Int),
        n ∈ get_existing_gameweeks (some fnames) ↔
          ∃ f ∈ fnames, isGwEntry f = true ∧ pyIntOfChars (gwStemChars f) = some n) ∧
    get_existing_gameweeks (some ["gw3.csv", "gwX.csv", "merged_gw.csv"]) = {3} := by
  constructor
  · intro fnames n
    have h := mem_scan_foldl fnames ∅ n
    simpa [get_existing_gameweeks] using h
  · rfl

/-- C2: with no override list, the planned gameweeks are exactly the
set difference available − existing, emitted as an ascending sorted
duplicate-free sequence; e.g. available {1,2,3,4,5} and existing
{1,2,3} plan [4,5]. -/
theorem gap_plan_correct :
    (∀ available existing : Finset Int,
        (plan_gameweeks none available existing).toFinset = available \ existing ∧
        List.Sorted (· ≤ ·) (plan_gameweeks none available existing) ∧
        (plan_gameweeks none available existing).Nodup) ∧
    plan_gameweeks none ({1,2,3,4,5} : Finset Int) {1,2,3} = [4,5] := by
  constructor
  · intro a e
    exact ⟨Finset.sort_toFinset _ _, Finset.sort_sorted _ _, Finset.sort_nodup _ _⟩
  · have h : ({1,2,3,4,5} : Finset Int) \ {1,2,3} = insert 4 {5} := rfl
    show (({1,2,3,4,5} : Finset Int) \ {1,2,3}).sort (· ≤ ·) = [4,5]
    rw [h, Finset.sort_insert, Finset.sort_singleton]
    · intro b hb; simp at hb; omega
    · decide

/-- C6: get_available_gameweeks parses the rounds of the first listed
subdirectory that contains a gw.csv and ignores all later entries; when
no subdirectory contains the file it returns the empty set. -/
theorem available_gameweeks_first_sample (entries : List PlayerEntry) :
    get_available_gameweeks (some entries) =
      match entries.find? (fun e => e.isDir && e.gwCsv.isSome) with
      | none => Except.ok (∅ : Finset Int)
      | some e => parseRounds (e.gwCsv.getD []) := by
  show goAvailable entries = _
  induction entries with
  | nil => rfl
  | cons e rest ih =>
    cases hd : e.isDir with
    | true =>
      cases hc : e.gwCsv with
      | some rows => simp [goAvailable, List.find?_cons, hd, hc]
      | none =>
        rw [show goAvailable (e :: rest) = goAvailable rest by simp [goAvailable, hd, hc]]
        rw [ih]
        simp [List.find?_cons, hd, hc]
    | false =>
      rw [show goAvailable (e :: rest) = goAvailable rest by simp [goAvailable, hd]]
      rw [ih]
      simp [List.find?_cons, hd]

/-- C7 counterexample: for a missing storage path the Availability
Prober does not return the empty set; it propagates FileNotFoundError
from os.listdir. -/
theorem missing_dir_claim_false :
    get_available_gameweeks none ≠ Except.ok (∅ : Finset Int) ∧
    get_available_gameweeks none = Except.error PyErr.fileNotFound :=
  ⟨fun h => Except.noConfusion h, rfl⟩

/-- C7 amended: a missing directory yields the empty set in
get_existing_gameweeks, while get_available_gameweeks raises
FileNotFoundError on it. -/
theorem missing_dir_behavior :
    get_existing_gameweeks none = (∅ : Finset Int) ∧
    get_available_gameweeks none = Except.error PyErr.fileNotFound :=
  ⟨rfl, rfl⟩

/-- A collector that raises on gameweek 1 and succeeds elsewhere. -/
def failingCollect : Int → Except PyErr Unit :=
  fun gw => if gw = 1 then Except.error PyErr.valueError else Except.ok ()

/-- C8 counterexample: with a collector failing on gameweek 1, the plan
[1, 2] stops after gameweek 1 — gameweek 2 is never attempted and the
exception propagates out of the loop. -/
theorem collect_loop_claim_false :
    collect_loop failingCollect [1, 2] = ([1], Except.error PyErr.valueError) ∧
    (2 : Int) ∉ (collect_loop failingCollect [1, 2]).1 :=
  ⟨rfl, by decide⟩

/-- C8 amended: the collection loop has no per-unit exception
handling: a failure at the head of the plan ends the loop with only the
head attempted, and the exception propagates. -/
theorem collect_loop_aborts (collect : Int → Except PyErr Unit) (gw : Int)
    (rest : List Int) (e : PyErr) (h : collect gw = Except.error e) :
    collect_loop collect (gw :: rest) = ([gw], Except.error e) := by
  simp [collect_loop, h]

/-- Witness for the amended C8 theorem at a concrete failing
collector. -/
theorem collect_loop_aborts_witness :
    collect_loop failingCollect [1, 2] = ([1], Except.error PyErr.valueError) :=
  collect_loop_aborts failingCollect 1 [2] PyErr.valueError rfl

/-- C10: row parsing in the Availability Prober is not total: a row
whose round field is not a valid integer raises ValueError, and a row
without a round column raises KeyError, uncaught in both cases. -/
theorem prober_raises_on_malformed_rows :
    get_available_gameweeks
        (some [⟨"player1", true, some [⟨[("round", "abc")]⟩]⟩]) =
      Except.error PyErr.valueError ∧
    get_available_gameweeks
        (some [⟨"player1", true, some [⟨[("minutes", "90")]⟩]⟩]) =
      Except.error PyErr.keyError :=
  ⟨rfl, rfl⟩

/-! Claim theorems for the identity matcher. -/

theorem entityName_mkFirst (fpl : Dict) (kv : String × String) :
    entityName (mkFirst fpl kv) = kv.1 := by
  unfold mkFirst entityName
  cases dlookup fpl kv.1 with
  | some fid => by_cases h : kv.1 = "" <;> simp [h]
  | none => by_cases h : kv.1 = "" <;> simp [h]

theorem entityName_mkResidue (kv : String × String) :
    entityName (mkResidue kv) = kv.1 := by
  simp [mkResidue, entityName]

theorem names_match_players (ustat fpl : Dict) :
    (match_players ustat fpl).map entityName =
      dkeys ustat ++ dkeys (fpl.filter (fun kv => (dlookup ustat kv.1).isNone)) := by
  rw [match_players_eq, List.map_append, List.map_map, List.map_map]
  have h1 : ustat.map (entityName ∘ mkFirst fpl) = ustat.map Prod.fst :=
    List.map_congr_left (fun kv _ => entityName_mkFirst fpl kv)
  have h2 : (fpl.filter (fun kv => (dlookup ustat kv.1).isNone)).map (entityName ∘ mkResidue) =
      (fpl.filter (fun kv => (dlookup ustat kv.1).isNone)).map Prod.fst :=
    List.map_congr_left (fun kv _ => entityName_mkResidue kv)
  rw [h1, h2]
  rfl

theorem mem_dkeys_filter_iff (A B : Dict) (a : String) :
    a ∈ dkeys (B.filter (fun kv => (dlookup A kv.1).isNone)) ↔
      a ∈ dkeys B ∧ a ∉ dkeys A := by
  constructor
  · intro h
    rcases List.mem_map.1 h with ⟨kv, hkv, rfl⟩
    rcases List.mem_filter.1 hkv with ⟨hB, hq⟩
    exact ⟨List.mem_map_of_mem Prod.fst hB,
      (dlookup_eq_none_iff A kv.1).1 (Option.isNone_iff_eq_none.1 hq)⟩
  · rintro ⟨hB, hA⟩
    rcases List.mem_map.1 hB with ⟨kv, hkv, rfl⟩
    refine List.mem_map_of_mem Prod.fst (List.mem_filter.2 ⟨hkv, ?_⟩)
    rw [Option.isNone_iff_eq_none, dlookup_eq_none_iff]
    exact hA

/-- C1: match_ids is a full outer join on exact name equality: after
the per-index last-duplicate-wins collapse, the emitted records carry
pairwise distinct entity names covering exactly the union of the two
key sets, so the record count is the cardinality of that union and no
name is lost or duplicated. -/
theorem match_ids_full_outer_join (u : List UstatRow) (f : List FplRow) :
    ((match_ids u f).map entityName).Nodup ∧
    ((match_ids u f).map entityName).toFinset =
      (dkeys (build_ustat_index u)).toFinset ∪ (dkeys (build_fpl_index f)).toFinset ∧
    (match_ids u f).length =
      ((dkeys (build_ustat_index u)).toFinset ∪ (dkeys (build_fpl_index f)).toFinset).card := by
  have hnames := names_match_players (build_ustat_index u) (build_fpl_index f)
  rw [match_ids]
  have hnodupA : (dkeys (build_ustat_index u)).Nodup := nodup_dkeys_build_ustat u
  have hnodupB : (dkeys (build_fpl_index f)).Nodup := nodup_dkeys_build_fpl f
  have hsub :
      List.Sublist
        (dkeys ((build_fpl_index f).filter
          (fun kv => (dlookup (build_ustat_index u) kv.1).isNone)))
        (dkeys (build_fpl_index f)) :=
    List.Sublist.map Prod.fst (List.filter_sublist (build_fpl_index f))
  have hnodupF := hnodupB.sublist hsub
  have hdisj : (dkeys (build_ustat_index u)).Disjoint
      (dkeys ((build_fpl_index f).filter
        (fun kv => (dlookup (build_ustat_index u) kv.1).isNone))) := by
    intro a haA haF
    exact ((mem_dkeys_filter_iff _ _ a).1 haF).2 haA
  have hnodup : ((match_players (build_ustat_index u) (build_fpl_index f)).map entityName).Nodup := by
    rw [hnames]
    exact hnodupA.append hnodupF hdisj
  refine ⟨hnodup, ?_, ?_⟩
  · rw [hnames]
    ext a
    simp only [List.toFinset_append, Finset.mem_union, List.mem_toFinset]
    rw [mem_dkeys_filter_iff]
    by_cases hA : a ∈ dkeys (build_ustat_index u) <;> tauto
  · have hlen : (match_players (build_ustat_index u) (build_fpl_index f)).length =
        ((match_players (build_ustat_index u) (build_fpl_index f)).map entityName).length :=
      (List.length_map _ _).symm
    rw [hlen, ← List.toFinset_card_of_nodup hnodup]
    congr 1
    rw [hnames]
    ext a
    simp only [List.toFinset_append, Finset.mem_union, List.mem_toFinset]
    rw [mem_dkeys_filter_iff]
    by_cases hA : a ∈ dkeys (build_ustat_index u) <;> tauto

/-- C3: a name known only to the understat index yields a record with
FPL id str(-1) and empty FPL name; a name known only to the FPL index
yields understat id str(-1) and empty understat name; a name known to
both yields both real ids and both name fields equal to the shared
name. -/
theorem sentinel_records (u : List UstatRow) (f : List FplRow) (n : String) :
    (∀ ua, dlookup (build_ustat_index u) n = some ua →
        dlookup (build_fpl_index f) n = none →
        (⟨ua, "-1", n, ""⟩ : PlayerID) ∈ match_ids u f) ∧
    (∀ fb, dlookup (build_ustat_index u) n = none →
        dlookup (build_fpl_index f) n = some fb →
        (⟨"-1", fb, "", n⟩ : PlayerID) ∈ match_ids u f) ∧
    (∀ ua fb, dlookup (build_ustat_index u) n = some ua →
        dlookup (build_fpl_index f) n = some fb →
        (⟨ua, fb, n, n⟩ : PlayerID) ∈ match_ids u f) := by
  refine ⟨?_, ?_, ?_⟩
  · intro ua hA hB
    have hmem : (n, ua) ∈ build_ustat_index u := dlookup_some_mem hA
    have heq : mkFirst (build_fpl_index f) (n, ua) = ⟨ua, "-1", n, ""⟩ := by
      simp [mkFirst, hB]
    rw [match_ids, match_players_eq]
    exact List.mem_append_left _ (heq ▸ List.mem_map_of_mem _ hmem)
  · intro fb hA hB
    have hmem : (n, fb) ∈ build_fpl_index f := dlookup_some_mem hB
    have hfilter : (n, fb) ∈ (build_fpl_index f).filter
        (fun kv => (dlookup (build_ustat_index u) kv.1).isNone) :=
      List.mem_filter.2 ⟨hmem, by simp [hA]⟩
    rw [match_ids, match_players_eq]
    exact List.mem_append_right _ (List.mem_map_of_mem mkResidue hfilter)
  · intro ua fb hA hB
    have hmem : (n, ua) ∈ build_ustat_index u := dlookup_some_mem hA
    have heq : mkFirst (build_fpl_index f) (n, ua) = ⟨ua, fb, n, n⟩ := by
      simp [mkFirst, hB]
    rw [match_ids, match_players_eq]
    exact List.mem_append_left _ (heq ▸ List.mem_map_of_mem _ hmem)

/-- Witness for the C3 theorem on a two-row understat export and a
two-row FPL export sharing the single name Alice Smith. -/
theorem sentinel_records_witness :
    (⟨"11", "-1", "Bob Jones", ""⟩ : PlayerID) ∈
      match_ids [⟨"Alice Smith", "10"⟩, ⟨"Bob Jones", "11"⟩]
        [⟨"Alice", "Smith", "3"⟩, ⟨"Carl", "Day", "4"⟩] ∧
    (⟨"-1", "4", "", "Carl Day"⟩ : PlayerID) ∈
      match_ids [⟨"Alice Smith", "10"⟩, ⟨"Bob Jones", "11"⟩]
        [⟨"Alice", "Smith", "3"⟩, ⟨"Carl", "Day", "4"⟩] ∧
    (⟨"10", "3", "Alice Smith", "Alice Smith"⟩ : PlayerID) ∈
      match_ids [⟨"Alice Smith", "10"⟩, ⟨"Bob Jones", "11"⟩]
        [⟨"Alice", "Smith", "3"⟩, ⟨"Carl", "Day", "4"⟩] :=
  ⟨(sentinel_records [⟨"Alice Smith", "10"⟩, ⟨"Bob Jones", "11"⟩]
      [⟨"Alice", "Smith", "3"⟩, ⟨"Carl", "Day", "4"⟩] "Bob Jones").1 "11" rfl rfl,
   (sentinel_records [⟨"Alice Smith", "10"⟩, ⟨"Bob Jones", "11"⟩]
      [⟨"Alice", "Smith", "3"⟩, ⟨"Carl", "Day", "4"⟩] "Carl Day").2.1 "4" rfl rfl,
   (sentinel_records [⟨"Alice Smith", "10"⟩, ⟨"Bob Jones", "11"⟩]
      [⟨"Alice", "Smith", "3"⟩, ⟨"Carl", "Day", "4"⟩] "Alice Smith").2.2 "10" "3" rfl rfl⟩

/-- C4 counterexample: an understat export whose id field is the
literal string -1 makes match_ids emit a record whose id fields are the
sentinel on both sides. -/
theorem record_invariant_claim_false :
    ∃ p ∈ match_ids [⟨"x", "-1"⟩] [], p.us_id = "-1" ∧ p.fpl_id = "-1" := by
  decide

/-- C4 amended: provided neither export carries the literal id string
-1, every record emitted by match_ids has a non-sentinel id on at
least one side, and a record has both name fields non-empty exactly
when both of its id fields are non-sentinel. -/
theorem record_invariant (u : List UstatRow) (f : List FplRow)
    (hu : ∀ r ∈ u, r.id ≠ "-1") (hf : ∀ r ∈ f, r.id ≠ "-1") :
    ∀ p ∈ match_ids u f,
      (p.us_id ≠ "-1" ∨ p.fpl_id ≠ "-1") ∧
      ((p.us_name ≠ "" ∧ p.fpl_name ≠ "") ↔ (p.us_id ≠ "-1" ∧ p.fpl_id ≠ "-1")) := by
  intro p hp
  rw [match_ids, match_players_eq] at hp
  rcases List.mem_append.1 hp with hp1 | hp1
  · rcases List.mem_map.1 hp1 with ⟨kv, hkv, rfl⟩
    obtain ⟨r, hr, hkveq⟩ := mem_build_ustat hkv
    have hid : kv.2 ≠ "-1" := by rw [hkveq]; exact hu r hr
    cases hB : dlookup (build_fpl_index f) kv.1 with
    | some fid =>
      have hfmem : (kv.1, fid) ∈ build_fpl_index f := dlookup_some_mem hB
      obtain ⟨r2, hr2, hkv2⟩ := mem_build_fpl hfmem
      have hfid : fid ≠ "-1" := by
        have hsnd : fid = r2.id := congrArg Prod.snd hkv2
        rw [hsnd]; exact hf r2 hr2
      have hname0 := fpl_key_ne_empty hfmem
      have hname : kv.1 ≠ "" := hname0
      rw [show mkFirst (build_fpl_index f) kv = ⟨kv.2, fid, kv.1, kv.1⟩ by
            simp [mkFirst, hB]]
      exact ⟨Or.inl hid, ⟨fun _ => ⟨hid, hfid⟩, fun _ => ⟨hname, hname⟩⟩⟩
    | none =>
      rw [show mkFirst (build_fpl_index f) kv = ⟨kv.2, "-1", kv.1, ""⟩ by
            simp [mkFirst, hB]]
      refine ⟨Or.inl hid, ?_, ?_⟩
      · rintro ⟨-, hne⟩; exact absurd rfl hne
      · rintro ⟨-, hne⟩; exact absurd rfl hne
  · rcases List.mem_map.1 hp1 with ⟨kv, hkv, rfl⟩
    have hkvB : kv ∈ build_fpl_index f := (List.mem_filter.1 hkv).1
    obtain ⟨r2, hr2, hkv2⟩ := mem_build_fpl hkvB
    have hid : kv.2 ≠ "-1" := by
      have hsnd : kv.2 = r2.id := congrArg Prod.snd hkv2
      rw [hsnd]; exact hf r2 hr2
    refine ⟨Or.inr hid, ?_, ?_⟩
    · rintro ⟨hne, -⟩; exact absurd rfl hne
    · rintro ⟨hne, -⟩; exact absurd rfl hne

/-- Witness for the amended C4 theorem at a one-row understat export
matching a one-row FPL export. -/
theorem record_invariant_witness :
    ((⟨"10", "3", "Alice Smith", "Alice Smith"⟩ : PlayerID).us_id ≠ "-1" ∨
      (⟨"10", "3", "Alice Smith", "Alice Smith"⟩ : PlayerID).fpl_id ≠ "-1") ∧
    (((⟨"10", "3", "Alice Smith", "Alice Smith"⟩ : PlayerID).us_name ≠ "" ∧
        (⟨"10", "3", "Alice Smith", "Alice Smith"⟩ : PlayerID).fpl_name ≠ "") ↔
      ((⟨"10", "3", "Alice Smith", "Alice Smith"⟩ : PlayerID).us_id ≠ "-1" ∧
        (⟨"10", "3", "Alice Smith", "Alice Smith"⟩ : PlayerID).fpl_id ≠ "-1")) :=
  record_invariant [⟨"Alice Smith", "10"⟩] [⟨"Alice", "Smith", "3"⟩]
    (by decide) (by decide) ⟨"10", "3", "Alice Smith", "Alice Smith"⟩ (by decide)

/-- C5: the text written to id_dict.csv is the exact four-column header
line followed by one line per record; the record list is the
understat-pass block in understat index order followed by the FPL-only
residue block in FPL index order, the matched records being exactly the
understat-pass records whose name has an FPL counterpart (hence all
before any FPL-only record) and the FPL-only records being exactly the
residue block. -/
theorem output_layout (u : List UstatRow) (f : List FplRow) :
    serialize (match_ids u f) =
      "Understat_ID,FPL_ID,Understat_Name,FPL_Name\n" ++
        String.join ((match_ids u f).map rowOf) ∧
    match_ids u f =
      (build_ustat_index u).map (mkFirst (build_fpl_index f)) ++
        ((build_fpl_index f).filter
          (fun kv => (dlookup (build_ustat_index u) kv.1).isNone)).map mkResidue ∧
    (match_ids u f).filter isMatchedRec =
      ((build_ustat_index u).filter
          (fun kv => (dlookup (build_fpl_index f) kv.1).isSome)).map
        (mkFirst (build_fpl_index f)) ∧
    (match_ids u f).filter isFplOnlyRec =
      ((build_fpl_index f).filter
          (fun kv => (dlookup (build_ustat_index u) kv.1).isNone)).map mkResidue := by
  have hblocks : match_ids u f =
      (build_ustat_index u).map (mkFirst (build_fpl_index f)) ++
        ((build_fpl_index f).filter
          (fun kv => (dlookup (build_ustat_index u) kv.1).isNone)).map mkResidue := by
    rw [match_ids, match_players_eq]
  refine ⟨rfl, hblocks, ?_, ?_⟩
  · rw [hblocks, List.filter_append]
    have h2 : ((((build_fpl_index f).filter
        (fun kv => (dlookup (build_ustat_index u) kv.1).isNone)).map mkResidue).filter
          isMatchedRec) = [] := by
      rw [List.filter_eq_nil_iff]
      intro p hp
      rcases List.mem_map.1 hp with ⟨kv, _, rfl⟩
      simp [isMatchedRec, mkResidue]
    rw [h2, List.append_nil, List.filter_map]
    congr 1
    refine List.filter_congr ?_
    intro kv hkv
    cases hB : dlookup (build_fpl_index f) kv.1 with
    | some fid =>
      have hname0 := fpl_key_ne_empty (dlookup_some_mem hB)
      have hname : kv.1 ≠ "" := hname0
      simp [Function.comp, mkFirst, hB, isMatchedRec, hname]
    | none =>
      simp [Function.comp, mkFirst, hB, isMatchedRec]
  · rw [hblocks, List.filter_append]
    have h1 : (((build_ustat_index u).map (mkFirst (build_fpl_index f))).filter
        isFplOnlyRec) = [] := by
      rw [List.filter_eq_nil_iff]
      intro p hp
      rcases List.mem_map.1 hp with ⟨kv, _, rfl⟩
      cases hB : dlookup (build_fpl_index f) kv.1 with
      | some fid =>
        have hname0 := fpl_key_ne_empty (dlookup_some_mem hB)
        have hname : kv.1 ≠ "" := hname0
        simp [isFplOnlyRec, mkFirst, hB, hname]
      | none =>
        simp [isFplOnlyRec, mkFirst, hB]
    rw [h1, List.nil_append]
    refine List.filter_eq_self.2 ?_
    intro p hp
    rcases List.mem_map.1 hp with ⟨kv, hkv, rfl⟩
    have hkvB : kv ∈ build_fpl_index f := (List.mem_filter.1 hkv).1
    have hname0 := fpl_key_ne_empty hkvB
    simp [isFplOnlyRec, mkResidue, hname0]

/-! Concrete evaluations of the embedded definitions on small inputs,
checking that the model computes the way the Python functions do. -/

example : pyInt "3" = some 3 := by decide
example : pyInt " 42 " = some 42 := by decide
example : pyInt "-7" = some (-7) := by decide
example : pyInt "X" = none := by decide
example : pyInt "" = none := by decide
example : get_existing_gameweeks (some ["gw3.csv", "gwX.csv", "merged_gw.csv"]) = {3} := rfl
example : get_available_gameweeks none = Except.error PyErr.fileNotFound := rfl
example :
    get_available_gameweeks
      (some [⟨"p1", true, some [⟨[("round", "abc")]⟩]⟩]) = Except.error PyErr.valueError := by
  rfl
example : plan_gameweeks none ({1,2,3,4,5} : Finset Int) {1,2,3} = [4,5] := by
  have h : ({1,2,3,4,5} : Finset Int) \ {1,2,3} = insert 4 {5} := rfl
  show (({1,2,3,4,5} : Finset Int) \ {1,2,3}).sort (· ≤ ·) = [4,5]
  rw [h, Finset.sort_insert, Finset.sort_singleton]
  · intro b hb; simp at hb; omega
  · decide
example :
    match_ids [⟨"Alice Smith", "10"⟩, ⟨"Bob Jones", "11"⟩] [⟨"Alice", "Smith", "3"⟩, ⟨"Carl", "Day", "4"⟩] =
      [⟨"10", "3", "Alice Smith", "Alice Smith"⟩,
       ⟨"11", "-1", "Bob Jones", ""⟩,
       ⟨"-1", "4", "", "Carl Day"⟩] := rfl
example :
    serialize [⟨"10", "3", "Alice Smith", "Alice Smith"⟩] =
      "Understat_ID,FPL_ID,Understat_Name,FPL_Name\n10,3,Alice Smith,Alice Smith\n" := rfl
example : match_ids [⟨"x", "-1"⟩] [] = [⟨"-1", "-1", "x", ""⟩] := rfl

end FPLModel
